import Mathlib

/-!
# Verification of the Sumano operations frontend (offline storage, file queue,
# intake form, API client)

Shallow embedding of the JavaScript source under `src/frontend/src` (plus the
change-request / pilot-handover components in `src/unnamed/part_000`).

Conventions of the embedding:
* `localStorage` is modelled as an association list `List (String × α)` whose
  keys are unique (browser storage keys are unique); entry order stands for the
  unspecified enumeration order of `localStorage.key(i)`.
* Values that the source stores after `JSON.stringify` and reads back with
  `JSON.parse` are kept structured in the store for the file-queue and
  intake-form models (the round trip through JSON is itself analysed
  separately on the raw-string store model used for `useOfflineStorage`'s
  `saveOffline`/`syncOffline`).
* Browser / runtime primitives that are not code of this repository
  (`FileReader.readAsDataURL`, `JSON.parse`/`JSON.stringify`, `parseInt`,
  `parseFloat`, `Date#toISOString`) are modelled from the spec; each such
  definition's doc comment says so.
* An `async` handler is embedded as a pure function from its inputs (component
  state, the outcome of the awaited network call) to its observable outputs
  (request issued, alert / error message, resulting storage state).
-/

namespace SumanoOps

/-! ## Generic localStorage model (association list, unique keys) -/

/-- `localStorage.getItem(k)` on a store holding values of type `α`. -/
def lsGet {α : Type} : List (String × α) → String → Option α
  | [], _ => none
  | p :: t, k => if p.1 == k then some p.2 else lsGet t k

/-- `localStorage.setItem(k, v)`: replaces the value at `k` in place if the key
exists (keys are unique, so replacing the first occurrence is replacement),
otherwise appends the new pair. -/
def lsSet {α : Type} : List (String × α) → String → α → List (String × α)
  | [], k, v => [(k, v)]
  | p :: t, k, v => if p.1 == k then (k, v) :: t else p :: lsSet t k v

/-- `localStorage.removeItem(k)`: keeps exactly the entries whose key differs
from `k`. -/
def lsRemove {α : Type} : List (String × α) → String → List (String × α)
  | [], _ => []
  | p :: t, k => if p.1 == k then lsRemove t k else p :: lsRemove t k

theorem lsGet_lsSet_self {α : Type} (store : List (String × α)) (k : String)
    (v : α) : lsGet (lsSet store k v) k = some v := by
  induction store with
  | nil => simp [lsSet, lsGet]
  | cons p t ih =>
    by_cases h : p.1 = k
    · simp [lsSet, lsGet, h]
    · simp [lsSet, lsGet, h, ih]

theorem lsGet_lsSet_other {α : Type} (store : List (String × α))
    (k k' : String) (v : α) (h : k' ≠ k) :
    lsGet (lsSet store k v) k' = lsGet store k' := by
  have hkk' : ¬ (k = k') := fun hc => h hc.symm
  induction store with
  | nil => simp [lsSet, lsGet, hkk']
  | cons p t ih =>
    by_cases hp : p.1 = k
    · simp [lsSet, lsGet, hp, hkk']
    · by_cases hq : p.1 = k'
      · simp [lsSet, lsGet, hp, hq, h]
      · simp [lsSet, lsGet, hp, hq, ih]

theorem lsGet_lsRemove_self {α : Type} (store : List (String × α))
    (k : String) : lsGet (lsRemove store k) k = none := by
  induction store with
  | nil => rfl
  | cons p t ih =>
    by_cases h : p.1 = k
    · simp [lsRemove, h, ih]
    · simp [lsRemove, lsGet, h, ih]

theorem lsGet_lsRemove_other {α : Type} (store : List (String × α))
    (k k' : String) (h : k' ≠ k) :
    lsGet (lsRemove store k) k' = lsGet store k' := by
  induction store with
  | nil => rfl
  | cons p t ih =>
    by_cases hp : p.1 = k
    · have hq : ¬ (p.1 = k') := fun hc => h (hc ▸ hp ▸ rfl)
      have hkk' : ¬ (k = k') := fun hc => h hc.symm
      simp [lsRemove, lsGet, hp, hq, hkk', ih]
    · by_cases hq : p.1 = k'
      · simp [lsRemove, lsGet, hp, hq, h]
      · simp [lsRemove, lsGet, hp, hq, ih]

theorem lsSet_of_fresh {α : Type} (store : List (String × α)) (k : String)
    (v : α) (h : ∀ p ∈ store, p.1 ≠ k) :
    lsSet store k v = store ++ [(k, v)] := by
  induction store with
  | nil => rfl
  | cons p t ih =>
    have hp : ¬ (p.1 = k) := h p (List.mem_cons_self p t)
    simp only [lsSet, beq_iff_eq, hp, if_neg, List.cons_append,
      List.cons.injEq, true_and, not_false_eq_true]
    exact ih (fun q hq => h q (List.mem_cons_of_mem p hq))

/-- `saveToStorage(key, data)` from `useOfflineStorage`: a `null` value removes
the entry, any other value is written with `setItem`; the returned `Bool` is
the function's return value.  `setItemFails = true` models `setItem` throwing
(e.g. quota exceeded): the exception is caught and `false` returned with the
store unchanged (`removeItem` does not throw). -/
def saveToStorage {α : Type} (setItemFails : Bool) (store : List (String × α))
    (k : String) (v : Option α) : Bool × List (String × α) :=
  match v with
  | none => (true, lsRemove store k)
  | some x => if setItemFails then (false, store) else (true, lsSet store k x)

/-! ## `saveOffline` / `syncOffline` on the raw-string store

For the round-trip analysis the store holds the raw strings that
`localStorage` actually holds; `encode`/`decode` stand for the runtime's
`JSON.stringify`/`JSON.parse` (modelled from the spec: `JSON.parse` throwing
on a stored string is `decode = none`, and the `catch` in `loadFromStorage`
turns that into `null`). -/

/-- `loadFromStorage(key)`: reads the raw string; a missing entry or an empty
string yields `null` (the source's `data ? JSON.parse(data) : null`); a parse
failure (`decode s = none`) is caught and yields `null`. -/
def loadFromStorage {α : Type} (decode : String → Option α)
    (store : List (String × String)) (k : String) : Option α :=
  match lsGet store k with
  | none => none
  | some s => if s = "" then none else decode s

/-- `saveOffline(key, data)` from `useOfflineStorage` (the React-state mirror
is not part of the storage model): serializes with `encode` and delegates to
`saveToStorage`; `null` removes the entry. -/
def saveOffline {α : Type} (encode : α → String) (setItemFails : Bool)
    (store : List (String × String)) (k : String) (v : Option α) :
    Bool × List (String × String) :=
  saveToStorage setItemFails store k (v.map encode)

/-- `syncOffline(key)` from `useOfflineStorage`: returns `loadFromStorage key`
(the `if (data)` in the source only guards the React-state mirror). -/
def syncOffline {α : Type} (decode : String → Option α)
    (store : List (String × String)) (k : String) : Option α :=
  loadFromStorage decode store k

/-! ## `makeRequest` from `useApiClient` -/

/-- The part of a `fetch` response that `makeRequest`'s error handling
inspects: the HTTP status and the `detail` field of the error JSON body
(`errorData.detail`; `none` when the body is not JSON or has no `detail`). -/
structure HttpResponse where
  status : Nat
  detail : Option String
  deriving DecidableEq, Repr

/-- `response.ok` per the fetch specification: status in 200..299. -/
def respOk (r : HttpResponse) : Bool :=
  decide (200 ≤ r.status) && decide (r.status ≤ 299)

/-- `makeRequest` error/return behaviour, as a function of the raw-string
`localStorage` (which holds `auth_token`) and the response received: yields
`Except.ok` with the response for an ok response, otherwise `Except.error`
with the thrown error message, together with the store after the call
(a 401 removes `auth_token`). -/
def makeRequest (store : List (String × String)) (resp : HttpResponse) :
    Except String HttpResponse × List (String × String) :=
  if respOk resp then
    (Except.ok resp, store)
  else if resp.status == 401 then
    (Except.error "Authentication required. Please log in again.",
      lsRemove store "auth_token")
  else if resp.status == 403 then
    (Except.error
      "Access denied. You do not have permission to perform this action.",
      store)
  else if 500 ≤ resp.status then
    (Except.error "Server error. Please try again later.", store)
  else
    (Except.error
      (resp.detail.getD ("Request failed with status " ++ toString resp.status)),
      store)

/-- C9: saving a value and syncing it back returns the decoded encode of the
value; saving `null` removes the entry so that syncing returns `null`; a
throwing parse is caught and yields `null`; a throwing write returns `false`
and leaves the store unchanged. -/
theorem offline_storage_round_trip {α : Type} (encode : α → String)
    (decode : String → Option α) (store : List (String × String))
    (k : String) (v : α) (hinv : decode (encode v) = some v)
    (henc : encode v ≠ "") :
    ((saveOffline encode false store k (some v)).1 = true
      ∧ syncOffline decode (saveOffline encode false store k (some v)).2 k
          = some v)
    ∧ ((saveOffline encode false store k none).1 = true
      ∧ syncOffline decode (saveOffline encode false store k none).2 k = none)
    ∧ (∀ s raw, lsGet s k = some raw → decode raw = none →
        syncOffline decode s k = none)
    ∧ (saveOffline encode true store k (some v)).1 = false
    ∧ (saveOffline encode true store k (some v)).2 = store := by
  refine ⟨⟨rfl, ?_⟩, ⟨rfl, ?_⟩, ?_, rfl, rfl⟩
  · show loadFromStorage decode (lsSet store k (encode v)) k = some v
    simp only [loadFromStorage, lsGet_lsSet_self]
    rw [if_neg henc, hinv]
  · show loadFromStorage decode (lsRemove store k) k = none
    simp only [loadFromStorage, lsGet_lsRemove_self]
  · intro s raw hget hdec
    show loadFromStorage decode s k = none
    simp only [loadFromStorage, hget]
    by_cases hraw : raw = ""
    · rw [if_pos hraw]
    · rw [if_neg hraw, hdec]

/-- A simple decoder used by the witness below: a partial inverse of
`toString` defined on `"5"` only (standing in for a `JSON.parse` that throws
on every other string). -/
def natDecode5 (s : String) : Option Nat :=
  if s = "5" then some 5 else none

/-- Closed witness for `offline_storage_round_trip` at `α = Nat`,
`encode = toString`, `decode = natDecode5`, `v = 5`, with the parse-failure
branch instantiated at the stored string `"garbage"`. -/
theorem offline_storage_round_trip_witness :
    ((saveOffline (toString : Nat → String) false [] "client_intake_form"
        (some 5)).1 = true
      ∧ syncOffline natDecode5
          (saveOffline (toString : Nat → String) false [] "client_intake_form"
            (some 5)).2 "client_intake_form" = some 5)
    ∧ syncOffline natDecode5
        (saveOffline (toString : Nat → String) false [] "client_intake_form"
          none).2 "client_intake_form" = none
    ∧ syncOffline natDecode5 [("client_intake_form", "garbage")]
        "client_intake_form" = none
    ∧ (saveOffline (toString : Nat → String) true [] "client_intake_form"
        (some 5)).1 = false
    ∧ (saveOffline (toString : Nat → String) true [] "client_intake_form"
        (some 5)).2 = [] := by
  have h := offline_storage_round_trip (toString : Nat → String) natDecode5 []
    "client_intake_form" 5 (by decide) (by decide)
  exact ⟨h.1, h.2.1.2,
    h.2.2.1 [("client_intake_form", "garbage")] "garbage" (by decide)
      (by decide),
    h.2.2.2.1, h.2.2.2.2⟩

/-- C10: a 401 response removes the stored `auth_token` and throws the
authentication error; a 403 throws the access-denied error with the store
unchanged; every non-ok response throws (the call never returns `ok`). -/
theorem makeRequest_error_handling (store : List (String × String))
    (resp : HttpResponse) :
    (resp.status = 401 →
      (makeRequest store resp).1
          = Except.error "Authentication required. Please log in again."
        ∧ (makeRequest store resp).2 = lsRemove store "auth_token"
        ∧ lsGet (makeRequest store resp).2 "auth_token" = none)
    ∧ (resp.status = 403 →
      (makeRequest store resp).1 = Except.error
          "Access denied. You do not have permission to perform this action."
        ∧ (makeRequest store resp).2 = store)
    ∧ (respOk resp = false → ∃ msg, (makeRequest store resp).1
        = Except.error msg) := by
  refine ⟨?_, ?_, ?_⟩
  · intro h401
    have hok : respOk resp = false := by simp [respOk, h401]
    simp only [makeRequest, hok, Bool.false_eq_true, if_false, h401]
    exact ⟨rfl, rfl, lsGet_lsRemove_self store "auth_token"⟩
  · intro h403
    have hok : respOk resp = false := by simp [respOk, h403]
    simp only [makeRequest, hok, Bool.false_eq_true, if_false, h403]
    exact ⟨rfl, rfl⟩
  · intro hok
    simp only [makeRequest, hok, Bool.false_eq_true, if_false]
    by_cases h1 : resp.status == 401
    · exact ⟨_, by rw [if_pos h1]⟩
    · rw [if_neg (by simpa using h1)]
      by_cases h3 : resp.status == 403
      · exact ⟨_, by rw [if_pos h3]⟩
      · rw [if_neg (by simpa using h3)]
        by_cases h5 : 500 ≤ resp.status
        · exact ⟨_, by rw [if_pos h5]⟩
        · exact ⟨_, by rw [if_neg h5]⟩

/-- Closed witness for `makeRequest_error_handling`: evaluates the three
branches at concrete 401 / 403 / 404 responses. -/
theorem makeRequest_error_handling_witness :
    ((makeRequest [("auth_token", "tok")] ⟨401, none⟩).1
        = Except.error "Authentication required. Please log in again."
      ∧ lsGet (makeRequest [("auth_token", "tok")] ⟨401, none⟩).2 "auth_token"
        = none)
    ∧ (makeRequest [("auth_token", "tok")] ⟨403, none⟩).2
        = [("auth_token", "tok")]
    ∧ (∃ msg, (makeRequest [("auth_token", "tok")] ⟨404, none⟩).1
        = Except.error msg) := by
  refine ⟨⟨?_, ?_⟩, ?_, ?_⟩
  · exact ((makeRequest_error_handling [("auth_token", "tok")]
      ⟨401, none⟩).1 rfl).1
  · exact ((makeRequest_error_handling [("auth_token", "tok")]
      ⟨401, none⟩).1 rfl).2.2
  · exact ((makeRequest_error_handling [("auth_token", "tok")]
      ⟨403, none⟩).2.1 rfl).2
  · exact (makeRequest_error_handling [("auth_token", "tok")]
      ⟨404, none⟩).2.2 (by decide)

/-! ## The offline file-upload queue (`useOfflineStorage` file-queue methods
and `FileUploader.syncOfflineQueue`) -/

/-- The `file` sub-object stored by `addFileToQueue`: name/size/type/
lastModified copied from the `File`, plus the content serialized as a base64
data URL. -/
structure QueuedFileMeta where
  name : String
  size : Nat
  type : String
  lastModified : Nat
  content : String
  deriving DecidableEq, Repr

/-- One queued upload job as stored under a `file_queue_*` key.  `timestamp`
is the epoch-millisecond instant of enqueueing (the source stores
`new Date().toISOString()` and compares entries via `new Date(x.timestamp)`,
so the parsed numeric value is what matters for ordering). -/
structure QueueEntry where
  id : String
  file : QueuedFileMeta
  projectId : String
  description : String
  timestamp : Nat
  status : String
  error : Option String
  deriving DecidableEq, Repr

/-- The `localStorage` contents relevant to the file queue, with entries kept
structured (the JSON stringify/parse round trip of a stored entry is exact). -/
abbrev FQStore := List (String × QueueEntry)

/-- A browser `File` as seen by `addFileToQueue`: metadata plus raw bytes. -/
structure BrowserFile where
  name : String
  size : Nat
  type : String
  lastModified : Nat
  bytes : List Nat
  deriving DecidableEq, Repr

/-- Modelled from the spec: standard base64 alphabet used by
`FileReader.readAsDataURL` (a browser API, not repository code). -/
def base64Chars : List Char :=
  [ 'A', 'B', 'C', 'D', 'E', 'F', 'G', 'H', 'I', 'J', 'K', 'L', 'M',
    'N', 'O', 'P', 'Q', 'R', 'S', 'T', 'U', 'V', 'W', 'X', 'Y', 'Z',
    'a', 'b', 'c', 'd', 'e', 'f', 'g', 'h', 'i', 'j', 'k', 'l', 'm',
    'n', 'o', 'p', 'q', 'r', 's', 't', 'u', 'v', 'w', 'x', 'y', 'z',
    '0', '1', '2', '3', '4', '5', '6', '7', '8', '9', '+', '/' ]

/-- Modelled from the spec: one base64 digit. -/
def base64Char (n : Nat) : Char := base64Chars.getD n '?'

/-- Modelled from the spec: base64 of a byte list (RFC 4648, with `=`
padding), as produced by `FileReader.readAsDataURL`. -/
def base64Encode : List Nat → List Char
  | [] => []
  | [b0] =>
    [base64Char (b0 / 4), base64Char (b0 % 4 * 16), '=', '=']
  | [b0, b1] =>
    [base64Char (b0 / 4), base64Char (b0 % 4 * 16 + b1 / 16),
      base64Char (b1 % 16 * 4), '=']
  | b0 :: b1 :: b2 :: rest =>
    base64Char (b0 / 4) :: base64Char (b0 % 4 * 16 + b1 / 16) ::
      base64Char (b1 % 16 * 4 + b2 / 64) :: base64Char (b2 % 64) ::
      base64Encode rest

/-- Modelled from the spec: `FileReader.readAsDataURL` (browser API, not
repository code) yields `data:<mime>;base64,<base64 of the bytes>`. -/
def readAsDataURL (f : BrowserFile) : String :=
  "data:" ++ f.type ++ ";base64," ++ String.mk (base64Encode f.bytes)

/-- The fresh key built by `addFileToQueue`:
`file_queue_${Date.now()}_${random suffix}`. -/
def queueKey (now : Nat) (rand : String) : String :=
  "file_queue_" ++ toString now ++ "_" ++ rand

/-- The `fileData` object built by `addFileToQueue`. -/
def queueEntryOf (f : BrowserFile) (projectId description : String)
    (now : Nat) (rand : String) : QueueEntry :=
  { id := queueKey now rand
    file := { name := f.name, size := f.size, type := f.type,
              lastModified := f.lastModified, content := readAsDataURL f }
    projectId := projectId
    description := description
    timestamp := now
    status := "pending"
    error := none }

/-- `addFileToQueue(file, projectId, description)`: writes the new job under
the fresh key and returns `saveToStorage`'s success flag. -/
def addFileToQueue (store : FQStore) (f : BrowserFile)
    (projectId description : String) (now : Nat) (rand : String) :
    Bool × FQStore :=
  saveToStorage false store (queueKey now rand)
    (some (queueEntryOf f projectId description now rand))

/-- `key.startsWith('file_queue_')` (`String.startsWith`, evaluated on the
character lists so that it reduces). -/
def strStartsWith (s pre : String) : Bool :=
  pre.toList.isPrefixOf s.toList

/-- The filter applied by `getFileQueue`: key starts with `file_queue_` and
the stored job is `pending`. -/
def isPendingQueueItem (p : String × QueueEntry) : Bool :=
  strStartsWith p.1 "file_queue_" && p.2.status == "pending"

/-- The sort relation of `getFileQueue`'s comparator
`(a, b) => new Date(a.timestamp) - new Date(b.timestamp)`. -/
def tsLe (a b : QueueEntry) : Prop := a.timestamp ≤ b.timestamp

instance : DecidableRel tsLe := fun a b => Nat.decLe a.timestamp b.timestamp

instance : IsTotal QueueEntry tsLe := ⟨fun a b => Nat.le_total a.timestamp b.timestamp⟩

instance : IsTrans QueueEntry tsLe := ⟨fun _ _ _ => Nat.le_trans⟩

/-- `getFileQueue()`: collects the pending jobs (in the store's enumeration
order) and sorts them by timestamp.  JavaScript's `Array.prototype.sort` is
stable and the comparator is a non-strict ordering by timestamp, which
`List.insertionSort` with `tsLe` matches. -/
def getFileQueue (store : FQStore) : List QueueEntry :=
  ((store.filter isPendingQueueItem).map Prod.snd).insertionSort tsLe

/-- `updateFileQueueStatus(queueId, status, error)`: no-op if the key is
absent; otherwise rewrites the entry with the new status, setting the error
field only when an error message is passed (the source's `if (error)`). -/
def updateFileQueueStatus (store : FQStore) (queueId status : String)
    (error : Option String) : FQStore :=
  match lsGet store queueId with
  | none => store
  | some data =>
    lsSet store queueId
      { data with
          status := status
          error := match error with | none => data.error | some e => some e }

/-- `removeFileFromQueue(queueId)` = `clearOffline(queueId)` =
`saveToStorage(queueId, null)` = `removeItem`. -/
def removeFileFromQueue (store : FQStore) (queueId : String) : FQStore :=
  lsRemove store queueId

/-- One iteration of `syncOfflineQueue`'s loop body for `item`: mark
`uploading`; if the upload (or the base64-to-file conversion) succeeds, mark
`completed` and remove the job; on a thrown error, mark `failed` with the
error message.  `outcome` tells whether `await uploadFile(...)` succeeds and
`errMsg` gives the thrown error's message. -/
def syncStep (outcome : QueueEntry → Bool) (errMsg : QueueEntry → String)
    (store : FQStore) (item : QueueEntry) : FQStore :=
  let s1 := updateFileQueueStatus store item.id "uploading" none
  if outcome item then
    removeFileFromQueue (updateFileQueueStatus s1 item.id "completed" none)
      item.id
  else
    updateFileQueueStatus s1 item.id "failed" (some (errMsg item))

/-- `syncOfflineQueue()`: takes the current queue and processes each job in
list order, serially (each `await` completes before the next job starts);
also returns the ids of the jobs for which an upload was attempted, in
order. -/
def syncOfflineQueue (outcome : QueueEntry → Bool)
    (errMsg : QueueEntry → String) (store : FQStore) :
    FQStore × List String :=
  (getFileQueue store).foldl
    (fun acc item => (syncStep outcome errMsg acc.1 item, acc.2 ++ [item.id]))
    (store, [])

theorem sync_foldl_pair (outcome : QueueEntry → Bool)
    (errMsg : QueueEntry → String) (q : List QueueEntry) (s : FQStore)
    (acc : List String) :
    q.foldl
        (fun a item => (syncStep outcome errMsg a.1 item, a.2 ++ [item.id]))
        (s, acc)
      = (q.foldl (syncStep outcome errMsg) s, acc ++ q.map QueueEntry.id) := by
  induction q generalizing s acc with
  | nil => simp
  | cons it q ih => simp [List.foldl_cons, ih]

/-- A pending 1-byte `a.txt` job enqueued at epoch-millisecond 1. -/
def jobA : QueueEntry :=
  { id := "file_queue_1_aaaaaaaaa"
    file := { name := "a.txt", size := 1, type := "text/plain",
              lastModified := 0, content := "data:text/plain;base64,YQ==" }
    projectId := "p1", description := "", timestamp := 1,
    status := "pending", error := none }

/-- A pending 1-byte `b.txt` job enqueued at epoch-millisecond 2. -/
def jobB : QueueEntry :=
  { id := "file_queue_2_bbbbbbbbb"
    file := { name := "b.txt", size := 1, type := "text/plain",
              lastModified := 0, content := "data:text/plain;base64,Yg==" }
    projectId := "p1", description := "", timestamp := 2,
    status := "pending", error := none }

/-- C1 (counterexample): the replay order is not arbitrary.  For the two-job
queue {jobA (t=1), jobB (t=2)} both possible `localStorage` enumeration
orders produce the same `getFileQueue` output `[jobA, jobB]`, and the replay
attempts the uploads in exactly that timestamp order even when the store
enumerates jobB first — so the replay does promise a particular processing
order for this set of jobs, contrary to the claim. -/
theorem fileQueue_ordering_counterexample :
    getFileQueue [(jobA.id, jobA), (jobB.id, jobB)] = [jobA, jobB]
    ∧ getFileQueue [(jobB.id, jobB), (jobA.id, jobA)] = [jobA, jobB]
    ∧ (syncOfflineQueue (fun _ => true) (fun _ => "")
        [(jobB.id, jobB), (jobA.id, jobA)]).2 = [jobA.id, jobB.id] := by
  decide

/-- C1 (amended): the replay performed on reconnect does order the jobs:
`getFileQueue` returns exactly the pending `file_queue_*` jobs, sorted by
nondecreasing timestamp, and `syncOfflineQueue` attempts their uploads in
that list order.  Only among jobs with equal timestamps is no particular
order promised (there the order follows the unspecified `localStorage`
enumeration order). -/
theorem fileQueue_replay_order (store : FQStore) (outcome : QueueEntry → Bool)
    (errMsg : QueueEntry → String) :
    List.Sorted tsLe (getFileQueue store)
    ∧ (getFileQueue store).Perm
        ((store.filter isPendingQueueItem).map Prod.snd)
    ∧ (syncOfflineQueue outcome errMsg store).2
        = (getFileQueue store).map QueueEntry.id := by
  refine ⟨List.sorted_insertionSort tsLe _, List.perm_insertionSort tsLe _, ?_⟩
  simp [syncOfflineQueue, sync_foldl_pair]

/-- C4: `addFileToQueue` with a fresh key appends exactly one entry — the job
record with the file's metadata, the base64 data-URL content, the given
project id and description, and status `pending` — and returns success;
every other key's entry is untouched. -/
theorem addFileToQueue_appends (store : FQStore) (f : BrowserFile)
    (projectId description : String) (now : Nat) (rand : String)
    (hfresh : ∀ p ∈ store, p.1 ≠ queueKey now rand) :
    addFileToQueue store f projectId description now rand
      = (true,
          store ++ [(queueKey now rand,
            queueEntryOf f projectId description now rand)])
    ∧ ((queueEntryOf f projectId description now rand).status = "pending"
      ∧ (queueEntryOf f projectId description now rand).id = queueKey now rand
      ∧ (queueEntryOf f projectId description now rand).file.content
          = readAsDataURL f
      ∧ (queueEntryOf f projectId description now rand).file.name = f.name
      ∧ (queueEntryOf f projectId description now rand).file.size = f.size
      ∧ (queueEntryOf f projectId description now rand).file.type = f.type
      ∧ (queueEntryOf f projectId description now rand).projectId = projectId
      ∧ (queueEntryOf f projectId description now rand).description
          = description)
    ∧ (∀ k, k ≠ queueKey now rand →
        lsGet (addFileToQueue store f projectId description now rand).2 k
          = lsGet store k) := by
  refine ⟨?_, ⟨rfl, rfl, rfl, rfl, rfl, rfl, rfl, rfl⟩, ?_⟩
  · show (true, lsSet store (queueKey now rand) _)
        = (true, store ++ [(queueKey now rand, _)])
    rw [lsSet_of_fresh store (queueKey now rand) _ hfresh]
  · intro k hk
    show lsGet (lsSet store (queueKey now rand) _) k = lsGet store k
    exact lsGet_lsSet_other store (queueKey now rand) k _ hk

/-- Closed witness for `addFileToQueue_appends`: a 1-byte `a.txt` enqueued
into an empty store at epoch-millisecond 1. -/
theorem addFileToQueue_appends_witness :
    addFileToQueue [] ⟨"a.txt", 1, "text/plain", 0, [97]⟩ "p1" "" 1 "aaaaaaaaa"
      = (true,
          [] ++ [(queueKey 1 "aaaaaaaaa",
            queueEntryOf ⟨"a.txt", 1, "text/plain", 0, [97]⟩ "p1" "" 1
              "aaaaaaaaa")])
    ∧ lsGet (addFileToQueue [] ⟨"a.txt", 1, "text/plain", 0, [97]⟩ "p1" "" 1
        "aaaaaaaaa").2 "auth_token" = lsGet [] "auth_token" := by
  have h := addFileToQueue_appends [] ⟨"a.txt", 1, "text/plain", 0, [97]⟩
    "p1" "" 1 "aaaaaaaaa" (fun p hp => absurd hp (List.not_mem_nil p))
  exact ⟨h.1, h.2.2 "auth_token" (by decide)⟩

/-! ### Correctness of the queue replay (`syncOfflineQueue`) -/

theorem lsGet_of_mem_nodup {α : Type} (store : List (String × α))
    (k : String) (v : α) (hnodup : (store.map Prod.fst).Nodup)
    (hmem : (k, v) ∈ store) : lsGet store k = some v := by
  induction store with
  | nil => cases hmem
  | cons p t ih =>
    rcases List.mem_cons.mp hmem with heq | hmem'
    · rw [← heq]
      simp [lsGet]
    · rw [List.map_cons] at hnodup
      rcases List.nodup_cons.mp hnodup with ⟨hnot, ht⟩
      have hp : ¬ (p.1 = k) := by
        intro hc
        have hk : k ∈ t.map Prod.fst :=
          List.mem_map.mpr ⟨(k, v), hmem', rfl⟩
        rw [hc] at hnot
        exact hnot hk
      simp only [lsGet, beq_iff_eq, hp, if_neg, not_false_eq_true]
      exact ih ht hmem'

theorem updateStatus_other (s : FQStore) (queueId st : String)
    (err : Option String) (k : String) (hk : k ≠ queueId) :
    lsGet (updateFileQueueStatus s queueId st err) k = lsGet s k := by
  unfold updateFileQueueStatus
  cases h : lsGet s queueId with
  | none => rfl
  | some d => exact lsGet_lsSet_other s queueId k _ hk

theorem updateStatus_self_none (s : FQStore) (queueId st : String)
    (d : QueueEntry) (hd : lsGet s queueId = some d) :
    lsGet (updateFileQueueStatus s queueId st none) queueId
      = some { d with status := st } := by
  unfold updateFileQueueStatus
  rw [hd]
  exact lsGet_lsSet_self s queueId _

theorem updateStatus_self_some (s : FQStore) (queueId st e : String)
    (d : QueueEntry) (hd : lsGet s queueId = some d) :
    lsGet (updateFileQueueStatus s queueId st (some e)) queueId
      = some { d with status := st, error := some e } := by
  unfold updateFileQueueStatus
  rw [hd]
  exact lsGet_lsSet_self s queueId _

theorem syncStep_other (outcome : QueueEntry → Bool)
    (errMsg : QueueEntry → String) (s : FQStore) (item : QueueEntry)
    (k : String) (hk : k ≠ item.id) :
    lsGet (syncStep outcome errMsg s item) k = lsGet s k := by
  unfold syncStep removeFileFromQueue
  by_cases h : outcome item
  · rw [if_pos h, lsGet_lsRemove_other _ _ _ hk, updateStatus_other _ _ _ _ _
      hk, updateStatus_other _ _ _ _ _ hk]
  · rw [if_neg h, updateStatus_other _ _ _ _ _ hk,
      updateStatus_other _ _ _ _ _ hk]

theorem syncStep_self (outcome : QueueEntry → Bool)
    (errMsg : QueueEntry → String) (s : FQStore) (item : QueueEntry)
    (hmem : lsGet s item.id = some item) :
    (outcome item = true →
      lsGet (syncStep outcome errMsg s item) item.id = none)
    ∧ (outcome item = false →
      lsGet (syncStep outcome errMsg s item) item.id
        = some { item with status := "failed",
                           error := some (errMsg item) }) := by
  constructor
  · intro h
    unfold syncStep removeFileFromQueue
    rw [if_pos h]
    exact lsGet_lsRemove_self _ _
  · intro h
    unfold syncStep
    rw [if_neg (by simp [h])]
    have h1 : lsGet (updateFileQueueStatus s item.id "uploading" none) item.id
        = some { item with status := "uploading" } :=
      updateStatus_self_none s item.id "uploading" item hmem
    exact updateStatus_self_some _ item.id "failed" (errMsg item)
      { item with status := "uploading" } h1

theorem sync_foldl_final (outcome : QueueEntry → Bool)
    (errMsg : QueueEntry → String) :
    ∀ (q : List QueueEntry) (s : FQStore),
    (q.map QueueEntry.id).Nodup →
    (∀ item ∈ q, lsGet s item.id = some item) →
    (∀ item ∈ q,
      (outcome item = true →
        lsGet (q.foldl (syncStep outcome errMsg) s) item.id = none)
      ∧ (outcome item = false →
        lsGet (q.foldl (syncStep outcome errMsg) s) item.id
          = some { item with status := "failed",
                             error := some (errMsg item) }))
    ∧ (∀ k, (∀ item ∈ q, k ≠ item.id) →
        lsGet (q.foldl (syncStep outcome errMsg) s) k = lsGet s k)
  | [], s, _, _ => ⟨fun item h => absurd h (List.not_mem_nil item),
      fun _ _ => rfl⟩
  | item :: q, s, hnodup, hin => by
    have hhead : item.id ∉ q.map QueueEntry.id :=
      (List.nodup_cons.mp (by simpa using hnodup)).1
    have htail : (q.map QueueEntry.id).Nodup :=
      (List.nodup_cons.mp (by simpa using hnodup)).2
    have hins : ∀ it ∈ q,
        lsGet (syncStep outcome errMsg s item) it.id = some it := by
      intro it hit
      have hne : it.id ≠ item.id := by
        intro hc
        exact hhead (hc ▸ List.mem_map.mpr ⟨it, hit, rfl⟩)
      rw [syncStep_other outcome errMsg s item it.id hne]
      exact hin it (List.mem_cons_of_mem item hit)
    have ih := sync_foldl_final outcome errMsg q
      (syncStep outcome errMsg s item) htail hins
    constructor
    · intro it hit
      rcases List.mem_cons.mp hit with heq | hit'
      · subst heq
        have hframe : ∀ it' ∈ q, it.id ≠ it'.id := by
          intro it' hit' hc
          exact hhead (hc ▸ List.mem_map.mpr ⟨it', hit', rfl⟩)
        have hstep := syncStep_self outcome errMsg s it
          (hin it (List.mem_cons_self it q))
        constructor
        · intro h
          rw [List.foldl_cons, ih.2 it.id hframe]
          exact hstep.1 h
        · intro h
          rw [List.foldl_cons, ih.2 it.id hframe]
          exact hstep.2 h
      · exact ⟨fun h => by rw [List.foldl_cons]; exact (ih.1 it hit').1 h,
          fun h => by rw [List.foldl_cons]; exact (ih.1 it hit').2 h⟩
    · intro k hk
      rw [List.foldl_cons, ih.2 k (fun it hit =>
        hk it (List.mem_cons_of_mem item hit)),
        syncStep_other outcome errMsg s item k
          (hk item (List.mem_cons_self item q))]

theorem getFileQueue_ids_nodup (store : FQStore)
    (hnodup : (store.map Prod.fst).Nodup)
    (hids : ∀ p ∈ store, p.2.id = p.1) :
    ((getFileQueue store).map QueueEntry.id).Nodup := by
  have hperm : (getFileQueue store).Perm
      ((store.filter isPendingQueueItem).map Prod.snd) :=
    List.perm_insertionSort tsLe _
  have hmapperm := hperm.map QueueEntry.id
  have heq : ((store.filter isPendingQueueItem).map Prod.snd).map
        QueueEntry.id
      = (store.filter isPendingQueueItem).map Prod.fst := by
    rw [List.map_map]
    exact List.map_congr_left (fun p hp =>
      hids p (List.mem_of_mem_filter hp))
  rw [heq] at hmapperm
  have hsub : ((store.filter isPendingQueueItem).map Prod.fst).Nodup :=
    hnodup.sublist ((List.filter_sublist store).map Prod.fst)
  exact hmapperm.nodup_iff.mpr hsub

theorem getFileQueue_mem_lsGet (store : FQStore)
    (hnodup : (store.map Prod.fst).Nodup)
    (hids : ∀ p ∈ store, p.2.id = p.1) :
    ∀ item ∈ getFileQueue store, lsGet store item.id = some item := by
  intro item hitem
  have hmem : item ∈ (store.filter isPendingQueueItem).map Prod.snd :=
    (List.perm_insertionSort tsLe _).subset hitem
  rcases List.mem_map.mp hmem with ⟨p, hp, hsnd⟩
  have hpstore : p ∈ store := List.mem_of_mem_filter hp
  have hid : item.id = p.1 := by rw [← hsnd]; exact hids p hpstore
  rw [hid]
  have : (p.1, p.2) ∈ store := by simpa using hpstore
  rw [← hsnd]
  exact lsGet_of_mem_nodup store p.1 p.2 hnodup this

/-- C2: the replay attempts the upload of every pending queued job exactly
once, serially in queue order (no idempotency guard, every pending job is
re-attempted on every sync); a job whose upload succeeds ends up removed
from the queue, a job whose upload fails ends up still stored with status
`failed` and the thrown error message recorded; every other key is
untouched.  Hypotheses: store keys are unique (as in `localStorage`) and
each stored job's `id` field equals its key (the invariant `addFileToQueue`
establishes). -/
theorem syncOfflineQueue_spec (outcome : QueueEntry → Bool)
    (errMsg : QueueEntry → String) (store : FQStore)
    (hnodup : (store.map Prod.fst).Nodup)
    (hids : ∀ p ∈ store, p.2.id = p.1) :
    (syncOfflineQueue outcome errMsg store).2
        = (getFileQueue store).map QueueEntry.id
    ∧ (∀ item ∈ getFileQueue store,
        (outcome item = true →
          lsGet (syncOfflineQueue outcome errMsg store).1 item.id = none)
        ∧ (outcome item = false →
          lsGet (syncOfflineQueue outcome errMsg store).1 item.id
            = some { item with status := "failed",
                               error := some (errMsg item) }))
    ∧ (∀ k, (∀ item ∈ getFileQueue store, k ≠ item.id) →
        lsGet (syncOfflineQueue outcome errMsg store).1 k = lsGet store k)
    := by
  have hfold : syncOfflineQueue outcome errMsg store
      = ((getFileQueue store).foldl (syncStep outcome errMsg) store,
         (getFileQueue store).map QueueEntry.id) := by
    unfold syncOfflineQueue
    rw [sync_foldl_pair]
    simp
  have hmain := sync_foldl_final outcome errMsg (getFileQueue store) store
    (getFileQueue_ids_nodup store hnodup hids)
    (getFileQueue_mem_lsGet store hnodup hids)
  rw [hfold]
  exact ⟨rfl, hmain.1, hmain.2⟩

/-- Closed witness for `syncOfflineQueue_spec`: two pending jobs; jobA's
upload succeeds (job removed), jobB's upload fails with a 500 (job kept as
`failed` with the message recorded). -/
theorem syncOfflineQueue_spec_witness :
    (syncOfflineQueue (fun it => it.timestamp == 1)
        (fun _ => "Upload failed with status 500")
        [(jobA.id, jobA), (jobB.id, jobB)]).2 = [jobA.id, jobB.id]
    ∧ lsGet (syncOfflineQueue (fun it => it.timestamp == 1)
        (fun _ => "Upload failed with status 500")
        [(jobA.id, jobA), (jobB.id, jobB)]).1 jobA.id = none
    ∧ lsGet (syncOfflineQueue (fun it => it.timestamp == 1)
        (fun _ => "Upload failed with status 500")
        [(jobA.id, jobA), (jobB.id, jobB)]).1 jobB.id
      = some { jobB with status := "failed",
                         error := some "Upload failed with status 500" } := by
  have h := syncOfflineQueue_spec (fun it => it.timestamp == 1)
    (fun _ => "Upload failed with status 500")
    [(jobA.id, jobA), (jobB.id, jobB)] (by decide) (by decide)
  refine ⟨?_, ?_, ?_⟩
  · rw [h.1]; decide
  · exact (h.2.1 jobA (by decide)).1 (by decide)
  · exact (h.2.1 jobB (by decide)).2 (by decide)

/-! ## File validation and upload (`FileUploader.validateFile`,
`handleFileSelect`, `useApiClient.uploadFile`) -/

/-- The 10MB limit of `validateFile`. -/
def maxFileSize : Nat := 10 * 1024 * 1024

/-- The `allowedTypes` list of `validateFile`: an allowlist of MIME types. -/
def allowedTypes : List String :=
  [ "image/jpeg", "image/jpg", "image/png", "image/gif",
    "application/pdf",
    "application/msword",
    "application/vnd.openxmlformats-officedocument.wordprocessingml.document",
    "application/vnd.ms-excel",
    "application/vnd.openxmlformats-officedocument.spreadsheetml.sheet",
    "text/plain" ]

/-- `validateFile(file)`: throws (returns `Except.error` with the thrown
message) if the file is over 10MB or its MIME type is not in `allowedTypes`;
otherwise returns normally. -/
def validateFile (f : BrowserFile) : Except String Unit :=
  if f.size > maxFileSize then
    Except.error
      ("File \x22" ++ f.name ++ "\x22 is too large. Maximum size is 10MB.")
  else if ! (allowedTypes.contains f.type) then
    Except.error ("File type \x22" ++ f.type ++ "\x22 is not allowed.")
  else
    Except.ok ()

/-- Whether `validateFile` accepts the file. -/
def passesValidation (f : BrowserFile) : Bool :=
  match validateFile f with
  | Except.ok _ => true
  | Except.error _ => false

/-- `handleFileSelect(files)`: partitions the chosen files into the valid
ones (appended to the selection, later uploaded by `handleUpload`) and the
validation error messages. -/
def handleFileSelect (files : List BrowserFile) :
    List BrowserFile × List String :=
  files.foldl
    (fun acc f =>
      match validateFile f with
      | Except.ok _ => (acc.1 ++ [f], acc.2)
      | Except.error m => (acc.1, acc.2 ++ [m]))
    ([], [])

deriving instance DecidableEq for Except

/-- A value appended to a `FormData`: either the file blob or a string. -/
inductive FormValue where
  | file : BrowserFile → FormValue
  | str : String → FormValue
  deriving DecidableEq, Repr

/-- The multipart request built by `uploadFile`. -/
structure MultipartRequest where
  url : String
  method : String
  entries : List (String × FormValue)
  deriving DecidableEq, Repr

/-- `uploadFile(file, projectId, description)`: POSTs the file as multipart
form data to `/attachments/` (relative to the API base), with the
`description` entry only when nonempty (the source's `if (description)`). -/
def uploadFileRequest (f : BrowserFile) (projectId description : String) :
    MultipartRequest :=
  { url := "/attachments/"
    method := "POST"
    entries :=
      [("file", FormValue.file f), ("project_id", FormValue.str projectId)]
        ++ (if description = "" then [] else
          [("description", FormValue.str description)]) }

/-- Modelled from the spec: an executable-extension blocklist (the spec's
words; no such list appears in the source, which uses the `allowedTypes`
allowlist instead).  A representative set of executable extensions. -/
def executableExtensions : List String :=
  [ "exe", "bat", "cmd", "com", "msi", "scr", "sh", "bin", "dll", "app",
    "jar", "vbs", "ps1" ]

/-- The extension of a file name (the part after the last dot). -/
def fileExt (name : String) : String :=
  String.mk ((name.toList.reverse.takeWhile (fun c => c ≠ '.')).reverse)

/-- A small CSV file: 100 bytes, MIME type `text/csv`, extension `csv`. -/
def csvFile : BrowserFile :=
  { name := "data.csv", size := 100, type := "text/csv", lastModified := 0,
    bytes := [] }

/-- C3 (counterexample): a 100-byte `data.csv` is at most 10MB and is not of
an executable type under the blocklist reading (its extension `csv` is in no
executable-extension blocklist), yet `validateFile` rejects it — the
validation is an allowlist of MIME types, not an executable-extension
blocklist. -/
theorem validateFile_blocklist_counterexample :
    csvFile.size ≤ maxFileSize
    ∧ fileExt csvFile.name = "csv"
    ∧ fileExt csvFile.name ∉ executableExtensions
    ∧ validateFile csvFile
      = Except.error "File type \x22text/csv\x22 is not allowed." := by
  decide

theorem handleFileSelect_foldl (files : List BrowserFile)
    (acc1 : List BrowserFile) (acc2 : List String) :
    (files.foldl
      (fun acc f =>
        match validateFile f with
        | Except.ok _ => (acc.1 ++ [f], acc.2)
        | Except.error m => (acc.1, acc.2 ++ [m]))
      (acc1, acc2)).1 = acc1 ++ files.filter passesValidation := by
  induction files generalizing acc1 acc2 with
  | nil => simp
  | cons f fs ih =>
    rw [List.foldl_cons, List.filter_cons]
    cases hv : validateFile f with
    | ok u =>
      have hp : passesValidation f = true := by
        unfold passesValidation; rw [hv]
      simp only [hv, hp, if_pos]
      rw [ih]
      simp
    | error m =>
      have hp : passesValidation f = false := by
        unfold passesValidation; rw [hv]
      simp only [hv, hp]
      rw [ih]
      simp

/-- C3 (amended): validation rejects a file exactly when its size exceeds
the 10MB limit or its MIME type is outside the allowed-type allowlist
(images, PDF, Word, Excel, plain text — which in particular admits no
executable type); the files that pass validation are exactly the ones kept
for upload, and each upload is a multipart POST of the file to
`/attachments/`. -/
theorem validateFile_spec (f : BrowserFile) (files : List BrowserFile)
    (projectId description : String) :
    (validateFile f = Except.ok ()
      ↔ (f.size ≤ maxFileSize ∧ f.type ∈ allowedTypes))
    ∧ (handleFileSelect files).1 = files.filter passesValidation
    ∧ (uploadFileRequest f projectId description).method = "POST"
    ∧ (uploadFileRequest f projectId description).url = "/attachments/"
    ∧ ("file", FormValue.file f)
        ∈ (uploadFileRequest f projectId description).entries := by
  refine ⟨?_, handleFileSelect_foldl files [] [], rfl, rfl, ?_⟩
  · unfold validateFile
    by_cases hs : f.size > maxFileSize
    · rw [if_pos hs]
      constructor
      · intro h; cases h
      · intro ⟨h1, _⟩; omega
    · rw [if_neg hs]
      cases ht : allowedTypes.contains f.type with
      | true =>
        rw [if_neg (by decide)]
        constructor
        · intro _
          exact ⟨Nat.le_of_not_lt hs, by simpa using ht⟩
        · intro _; rfl
      | false =>
        rw [if_pos (by decide)]
        constructor
        · intro h; cases h
        · intro ⟨_, h2⟩
          exact absurd h2 (by simpa using ht)
  · exact List.mem_cons_self _ _

/-! ## The client-intake form (`ClientIntakeForm.onSubmit` and
`useApiClient.submitClientIntake`) -/

/-- A calendar date as held by the date pickers (`Date` is a browser
builtin; only the UTC calendar date matters for the payload). -/
structure JsDate where
  year : Nat
  month : Nat
  day : Nat
  deriving DecidableEq, Repr

/-- Zero-pad to two digits. -/
def pad2 (n : Nat) : String :=
  if n < 10 then "0" ++ toString n else toString n

/-- Zero-pad to four digits. -/
def pad4 (n : Nat) : String :=
  if n < 10 then "000" ++ toString n
  else if n < 100 then "00" ++ toString n
  else if n < 1000 then "0" ++ toString n
  else toString n

/-- Modelled from the spec: `d.toISOString().split('T')[0]` — the browser's
`Date#toISOString` yields `YYYY-MM-DDTHH:mm:ss.sssZ`, so the part before the
`T` is the zero-padded `YYYY-MM-DD` date. -/
def isoDatePart (d : JsDate) : String :=
  pad4 d.year ++ "-" ++ pad2 d.month ++ "-" ++ pad2 d.day

/-- Modelled from the spec: JavaScript `parseInt` on a form input — skips
leading spaces, takes an optional sign and the longest run of decimal
digits; no digits means `NaN`, which serializes as `null` (`none`). -/
def jsParseInt (s : String) : Option Int :=
  let chars := s.toList.dropWhile (fun c => c = ' ')
  let signAndRest : Int × List Char :=
    match chars with
    | '-' :: r => (-1, r)
    | '+' :: r => (1, r)
    | r => (1, r)
  let digits := signAndRest.2.takeWhile Char.isDigit
  if digits.isEmpty then none
  else some (signAndRest.1 *
    ((digits.foldl (fun acc c => acc * 10 + (c.toNat - 48)) 0 : Nat) : Int))

/-- Modelled from the spec: JavaScript `parseFloat` on a form input — sign,
integer digits, optional fraction digits; no digits means `NaN`, which
serializes as `null` (`none`).  The value is kept exact as a rational. -/
def jsParseFloat (s : String) : Option Rat :=
  let chars := s.toList.dropWhile (fun c => c = ' ')
  let signAndRest : Rat × List Char :=
    match chars with
    | '-' :: r => (-1, r)
    | '+' :: r => (1, r)
    | r => (1, r)
  let intDigits := signAndRest.2.takeWhile Char.isDigit
  let afterInt := signAndRest.2.drop intDigits.length
  let fracDigits : List Char :=
    match afterInt with
    | '.' :: r => r.takeWhile Char.isDigit
    | _ => []
  if intDigits.isEmpty && fracDigits.isEmpty then none
  else
    let intPart : Nat := intDigits.foldl (fun acc c => acc * 10 + (c.toNat - 48)) 0
    let fracPart : Nat := fracDigits.foldl (fun acc c => acc * 10 + (c.toNat - 48)) 0
    some (signAndRest.1 *
      ((intPart : Rat) + (fracPart : Rat) / ((10 : Rat) ^ fracDigits.length)))

/-- The intake form's field values as submitted (`data` in `onSubmit`).
Text inputs are strings (empty = unfilled), the three multi-selects are
string lists, the two date pickers are optional dates, and the free-form
object fields (`design_preferences`, `logo_colors`, `maintenance_plan`,
`acknowledgment`) are carried as opaque payloads. -/
structure IntakeData where
  school_name : String
  address : String
  contact_person : String
  role_position : String
  phone_whatsapp : String
  email : String
  current_website : String
  number_of_students : String
  number_of_staff : String
  project_type : List String
  project_purpose : List String
  pilot_scope_features : List String
  pilot_start_date : Option JsDate
  pilot_end_date : Option JsDate
  timeline_preference : String
  design_preferences : String
  logo_colors : String
  content_availability : Bool
  maintenance_plan : String
  token_commitment_fee : String
  additional_notes : String
  acknowledgment : String
  deriving DecidableEq, Repr

/-- The nested `organization` object built by `submitClientIntake`. -/
structure OrganizationData where
  name : String
  organization_type : String
  email : String
  deriving DecidableEq, Repr

/-- The `clientData` JSON body built by `submitClientIntake`. -/
structure ClientData where
  organization : OrganizationData
  school_name : String
  address : String
  contact_person : String
  role_position : String
  phone_whatsapp : String
  email : String
  current_website : String
  number_of_students : Option Int
  number_of_staff : Option Int
  project_type : List String
  project_purpose : List String
  pilot_scope_features : List String
  pilot_start_date : Option String
  pilot_end_date : Option String
  timeline_preference : String
  design_preferences : String
  logo_colors : String
  content_availability : Bool
  maintenance_plan : String
  token_commitment_fee : Option Rat
  additional_notes : String
  acknowledgment : String
  deriving DecidableEq, Repr

/-- `formData.number_of_students ? parseInt(formData.number_of_students) :
null` (and likewise for the staff count): empty string is falsy. -/
def numField (s : String) : Option Int :=
  if s = "" then none else jsParseInt s

/-- `formData.token_commitment_fee ? parseFloat(...) : null`. -/
def feeField (s : String) : Option Rat :=
  if s = "" then none else jsParseFloat s

/-- The `clientData` object assembled by `submitClientIntake`. -/
def clientDataOf (d : IntakeData) : ClientData :=
  { organization :=
      { name := d.school_name, organization_type := "educational",
        email := d.email }
    school_name := d.school_name
    address := d.address
    contact_person := d.contact_person
    role_position := d.role_position
    phone_whatsapp := d.phone_whatsapp
    email := d.email
    current_website := d.current_website
    number_of_students := numField d.number_of_students
    number_of_staff := numField d.number_of_staff
    project_type := d.project_type
    project_purpose := d.project_purpose
    pilot_scope_features := d.pilot_scope_features
    pilot_start_date := d.pilot_start_date.map isoDatePart
    pilot_end_date := d.pilot_end_date.map isoDatePart
    timeline_preference := d.timeline_preference
    design_preferences := d.design_preferences
    logo_colors := d.logo_colors
    content_availability := d.content_availability
    maintenance_plan := d.maintenance_plan
    token_commitment_fee := feeField d.token_commitment_fee
    additional_notes := d.additional_notes
    acknowledgment := d.acknowledgment }

/-- A JSON request issued through `makeRequest`. -/
structure IntakeRequest where
  url : String
  method : String
  body : ClientData
  deriving DecidableEq, Repr

/-- `submitClientIntake(formData)`: POST the assembled client data to
`/clients/` (relative to the API base). -/
def submitClientIntake (d : IntakeData) : IntakeRequest :=
  { url := "/clients/", method := "POST", body := clientDataOf d }

/-- The `requiredFields` list of `onSubmit`. -/
def requiredFields : List String :=
  [ "school_name", "contact_person", "email", "project_type",
    "project_purpose", "pilot_scope_features", "timeline_preference" ]

/-- The missing-field test of `onSubmit`:
`!value || (Array.isArray(value) && value.length === 0)` — a text field is
missing when empty, a multi-select when the empty list. -/
def fieldMissing (d : IntakeData) : String → Bool
  | "school_name" => d.school_name == ""
  | "contact_person" => d.contact_person == ""
  | "email" => d.email == ""
  | "project_type" => d.project_type.isEmpty
  | "project_purpose" => d.project_purpose.isEmpty
  | "pilot_scope_features" => d.pilot_scope_features.isEmpty
  | "timeline_preference" => d.timeline_preference == ""
  | _ => false

/-- `requiredFields.filter(...)` in `onSubmit`. -/
def missingFields (d : IntakeData) : List String :=
  requiredFields.filter (fieldMissing d)

/-- The message of the required-fields error thrown by `onSubmit`. -/
def requiredErrMsg (fields : List String) : String :=
  "Please fill in all required fields: " ++ String.intercalate ", " fields

/-- The failure alert of `onSubmit`'s `catch` block. -/
def failAlert (msg : String) : String :=
  "Form submission failed: " ++ msg ++ ". Data saved offline for later sync."

/-- The observable outcome of one run of `ClientIntakeForm.onSubmit`: the
request issued (if any), the alert text shown, and the
`client_intake_form`-slot store afterwards. -/
structure SubmitResult where
  request : Option IntakeRequest
  alertMsg : String
  store : List (String × IntakeData)
  deriving DecidableEq, Repr

/-- `ClientIntakeForm.onSubmit(data)`: validates the required fields (a
failure throws into the `catch`, which saves the data offline and alerts);
otherwise submits; a submit failure is caught the same way; a success clears
the offline copy (`saveOffline(key, null)`) and shows the success alert. -/
def onSubmitIntake (d : IntakeData) (submitOutcome : Except String Unit)
    (store : List (String × IntakeData)) : SubmitResult :=
  if (missingFields d).isEmpty then
    match submitOutcome with
    | Except.ok _ =>
      { request := some (submitClientIntake d)
        alertMsg := "Intake form submitted successfully!"
        store := (saveToStorage false store "client_intake_form" none).2 }
    | Except.error msg =>
      { request := some (submitClientIntake d)
        alertMsg := failAlert msg
        store := (saveToStorage false store "client_intake_form" (some d)).2 }
  else
    { request := none
      alertMsg := failAlert (requiredErrMsg (missingFields d))
      store := (saveToStorage false store "client_intake_form" (some d)).2 }

/-- C5: on any failed submit (missing required field, or the request
throwing) the entered data is stored under `client_intake_form` and a
failure alert is shown; on success the offline copy is removed (saved as
`null`) and nothing remains under that key. -/
theorem intake_offline_persistence (d : IntakeData)
    (store : List (String × IntakeData)) (m : String) :
    ((missingFields d).isEmpty = false →
      lsGet (onSubmitIntake d (Except.ok ()) store).store "client_intake_form"
          = some d
        ∧ (onSubmitIntake d (Except.ok ()) store).alertMsg
          = failAlert (requiredErrMsg (missingFields d)))
    ∧ ((missingFields d).isEmpty = true →
      lsGet (onSubmitIntake d (Except.error m) store).store
          "client_intake_form" = some d
        ∧ (onSubmitIntake d (Except.error m) store).alertMsg = failAlert m)
    ∧ ((missingFields d).isEmpty = true →
      lsGet (onSubmitIntake d (Except.ok ()) store).store "client_intake_form"
          = none
        ∧ (onSubmitIntake d (Except.ok ()) store).alertMsg
          = "Intake form submitted successfully!") := by
  refine ⟨?_, ?_, ?_⟩
  · intro h
    unfold onSubmitIntake
    rw [if_neg (by simp [h])]
    exact ⟨lsGet_lsSet_self store "client_intake_form" d, rfl⟩
  · intro h
    unfold onSubmitIntake
    rw [if_pos h]
    exact ⟨lsGet_lsSet_self store "client_intake_form" d, rfl⟩
  · intro h
    unfold onSubmitIntake
    rw [if_pos h]
    exact ⟨lsGet_lsRemove_self store "client_intake_form", rfl⟩

/-- An intake submission with every required field present. -/
def sampleIntake : IntakeData :=
  { school_name := "Greenfield High", address := "1 Main St",
    contact_person := "Jane Doe", role_position := "Principal",
    phone_whatsapp := "+15550100", email := "jane@greenfield.example",
    current_website := "", number_of_students := "120",
    number_of_staff := "", project_type := ["website_development"],
    project_purpose := ["enhance_communication"],
    pilot_scope_features := ["user_authentication"],
    pilot_start_date := some ⟨2024, 3, 5⟩, pilot_end_date := none,
    timeline_preference := "3_months", design_preferences := "",
    logo_colors := "", content_availability := false,
    maintenance_plan := "", token_commitment_fee := "49.99",
    additional_notes := "", acknowledgment := "" }

/-- An intake submission missing `school_name` and `project_type`. -/
def sampleMissing : IntakeData :=
  { sampleIntake with school_name := "", project_type := [] }

/-- Closed witness for `intake_offline_persistence`: failed submits save the
data offline with a failure alert, a successful submit clears the slot. -/
theorem intake_offline_persistence_witness :
    (lsGet (onSubmitIntake sampleMissing (Except.ok ()) []).store
        "client_intake_form" = some sampleMissing
      ∧ (onSubmitIntake sampleMissing (Except.ok ()) []).alertMsg
        = failAlert (requiredErrMsg (missingFields sampleMissing)))
    ∧ lsGet (onSubmitIntake sampleIntake (Except.error "Network error")
        []).store "client_intake_form" = some sampleIntake
    ∧ lsGet (onSubmitIntake sampleIntake (Except.ok ()) []).store
        "client_intake_form" = none := by
  refine ⟨?_, ?_, ?_⟩
  · exact (intake_offline_persistence sampleMissing [] "Network error").1
      (by decide)
  · exact ((intake_offline_persistence sampleIntake [] "Network error").2.1
      (by decide)).1
  · exact ((intake_offline_persistence sampleIntake [] "Network error").2.2
      (by decide)).1

/-- C6: if any required field is missing, no request is issued and the alert
names exactly the missing fields; otherwise the submit issues a POST to
`/clients/` whose body carries the entered fields, with the numeric inputs
parsed to numbers or null, the fee parsed to a number or null, and the dates
formatted `YYYY-MM-DD`. -/
theorem intake_submit_endpoint (d : IntakeData)
    (store : List (String × IntakeData)) (outcome : Except String Unit) :
    ((missingFields d).isEmpty = false →
      (onSubmitIntake d outcome store).request = none
        ∧ (onSubmitIntake d outcome store).alertMsg
          = failAlert (requiredErrMsg (missingFields d)))
    ∧ ((missingFields d).isEmpty = true →
      (onSubmitIntake d outcome store).request
        = some { url := "/clients/", method := "POST",
                 body := clientDataOf d })
    ∧ (∀ fld, fld ∈ missingFields d
        ↔ (fld ∈ requiredFields ∧ fieldMissing d fld = true))
    ∧ (clientDataOf d).organization
        = { name := d.school_name, organization_type := "educational",
            email := d.email }
    ∧ (clientDataOf d).school_name = d.school_name
    ∧ (clientDataOf d).contact_person = d.contact_person
    ∧ (clientDataOf d).email = d.email
    ∧ (clientDataOf d).project_type = d.project_type
    ∧ (clientDataOf d).project_purpose = d.project_purpose
    ∧ (clientDataOf d).pilot_scope_features = d.pilot_scope_features
    ∧ (clientDataOf d).timeline_preference = d.timeline_preference
    ∧ (clientDataOf d).number_of_students
        = (if d.number_of_students = "" then none
           else jsParseInt d.number_of_students)
    ∧ (clientDataOf d).number_of_staff
        = (if d.number_of_staff = "" then none
           else jsParseInt d.number_of_staff)
    ∧ (clientDataOf d).token_commitment_fee
        = (if d.token_commitment_fee = "" then none
           else jsParseFloat d.token_commitment_fee)
    ∧ (clientDataOf d).pilot_start_date = d.pilot_start_date.map isoDatePart
    ∧ (clientDataOf d).pilot_end_date = d.pilot_end_date.map isoDatePart
    := by
  refine ⟨?_, ?_, ?_, rfl, rfl, rfl, rfl, rfl, rfl, rfl, rfl, rfl, rfl, rfl,
    rfl, rfl⟩
  · intro h
    unfold onSubmitIntake
    rw [if_neg (by simp [h])]
    exact ⟨rfl, rfl⟩
  · intro h
    unfold onSubmitIntake
    rw [if_pos h]
    cases outcome with
    | ok u => rfl
    | error m => rfl
  · intro fld
    exact List.mem_filter

/-- Closed witness for `intake_submit_endpoint`: the missing-field run sends
nothing and the alert lists `school_name, project_type`; the complete run
POSTs to `/clients/` with the parsed numeric fields and the `YYYY-MM-DD`
start date. -/
theorem intake_submit_endpoint_witness :
    ((onSubmitIntake sampleMissing (Except.ok ()) []).request = none
      ∧ (onSubmitIntake sampleMissing (Except.ok ()) []).alertMsg
        = failAlert (requiredErrMsg ["school_name", "project_type"]))
    ∧ (onSubmitIntake sampleIntake (Except.ok ()) []).request
      = some { url := "/clients/", method := "POST",
               body := clientDataOf sampleIntake }
    ∧ (clientDataOf sampleIntake).number_of_students = some 120
    ∧ (clientDataOf sampleIntake).number_of_staff = none
    ∧ (clientDataOf sampleIntake).pilot_start_date = some "2024-03-05" := by
  have h1 := (intake_submit_endpoint sampleMissing [] (Except.ok ())).1
    (by decide)
  have h2 := (intake_submit_endpoint sampleIntake [] (Except.ok ())).2.1
    (by decide)
  refine ⟨⟨h1.1, ?_⟩, h2, ?_, ?_, ?_⟩
  · rw [h1.2]
    decide
  · decide
  · decide
  · decide

/-! ## Named REST actions: `ChangeRequestForm.handleSignatureSubmit` and
`PilotHandoverForm.generateDocument` (`src/unnamed/part_000`) -/

/-- A bare API request (URL and method). -/
structure ApiReq where
  url : String
  method : String
  deriving DecidableEq, Repr

/-- The `signature_data` body of `sign_change_request`. -/
structure SignatureBody where
  name : String
  signature : String
  date : String
  deriving DecidableEq, Repr

/-- A `sign_change_request` POST with its body. -/
structure SignRequest where
  url : String
  method : String
  signature_data : SignatureBody
  deriving DecidableEq, Repr

/-- The component state read by `handleSignatureSubmit`: the change request's
id (if saved), the user's role codename and username, and the two signature
pad slots (`none` for an absent/empty signature, which is falsy). -/
structure CRSignState where
  changeRequestId : Option String
  userRole : Option String
  userName : Option String
  clientSignature : Option String
  providerSignature : Option String
  deriving DecidableEq, Repr

/-- `user?.role?.codename === 'client_contact'`. -/
def crIsClient (s : CRSignState) : Bool :=
  s.userRole == some "client_contact"

/-- `handleSignatureSubmit`: silently returns when the change request has no
id; with an id but no signature in the role's slot, shows the
provide-a-signature error; otherwise POSTs `sign_change_request` with the
`signature_data` body (name / signature / ISO date).  Returns the request
issued (if any) and the error message shown (if any). -/
def handleSignatureSubmit (s : CRSignState) (now : String) :
    Option SignRequest × Option String :=
  match s.changeRequestId with
  | none => (none, none)
  | some cid =>
    match (if crIsClient s then s.clientSignature else s.providerSignature)
      with
    | none => (none, some "Please provide a signature.")
    | some sigData =>
      (some
        { url := "/api/change-requests/" ++ cid ++ "/sign_change_request/"
          method := "POST"
          signature_data :=
            { name := s.userName.getD "", signature := sigData,
              date := now } },
        none)

/-- `PilotHandoverForm.generateDocument`: with no saved handover id, shows
the save-first error and sends nothing; otherwise POSTs
`generate_handover_document`.  Returns the request issued (if any) and the
error message shown (if any). -/
def generateDocument (handoverId : Option String) :
    Option ApiReq × Option String :=
  match handoverId with
  | none =>
    (none, some "Please save the handover first before generating document")
  | some h =>
    (some
      { url := "/api/pilot-handover/" ++ h ++ "/generate_handover_document/"
        method := "POST" },
      none)

/-- A signing attempt on a change request that has no id yet (the provider
signature is present, the user is staff). -/
def noIdSignState : CRSignState :=
  { changeRequestId := none, userRole := some "staff",
    userName := some "sam", clientSignature := none,
    providerSignature := some "data:image/png;base64,sig" }

/-- C7 (counterexample): signing a change request without an id makes no
request — but also shows no error message (`handleSignatureSubmit` returns
silently), contradicting the claim that an error message is shown whenever
the record has no id. -/
theorem signAction_no_id_counterexample :
    (handleSignatureSubmit noIdSignState "2024-01-01T00:00:00.000Z").1 = none
    ∧ (handleSignatureSubmit noIdSignState "2024-01-01T00:00:00.000Z").2
      = none := by
  decide

/-- C7 (amended): both named actions are attempted only for a record that
already has an id.  `generate_handover_document` shows an error message when
the id is missing; `sign_change_request` returns silently without any
message when the id is missing (and shows the provide-a-signature error when
the id exists but the signature slot is empty).  With an id and a signature,
the POST bodies and URLs are as the claim states. -/
theorem namedActions_spec (s : CRSignState) (now : String)
    (hid : Option String) :
    (s.changeRequestId = none → handleSignatureSubmit s now = (none, none))
    ∧ (∀ cid sig, s.changeRequestId = some cid →
        (if crIsClient s then s.clientSignature else s.providerSignature)
          = some sig →
        handleSignatureSubmit s now
          = (some
              { url := "/api/change-requests/" ++ cid
                  ++ "/sign_change_request/"
                method := "POST"
                signature_data :=
                  { name := s.userName.getD "", signature := sig,
                    date := now } },
             none))
    ∧ (∀ cid, s.changeRequestId = some cid →
        (if crIsClient s then s.clientSignature else s.providerSignature)
          = none →
        handleSignatureSubmit s now
          = (none, some "Please provide a signature."))
    ∧ generateDocument none
      = (none, some "Please save the handover first before generating document")
    ∧ (∀ h, hid = some h →
        generateDocument hid
          = (some
              { url := "/api/pilot-handover/" ++ h
                  ++ "/generate_handover_document/"
                method := "POST" },
             none)) := by
  refine ⟨?_, ?_, ?_, rfl, ?_⟩
  · intro h
    unfold handleSignatureSubmit
    rw [h]
  · intro cid sig hcid hsig
    unfold handleSignatureSubmit
    rw [hcid, hsig]
  · intro cid hcid hsig
    unfold handleSignatureSubmit
    rw [hcid, hsig]
  · intro h hh
    unfold generateDocument
    rw [hh]

/-- A signing attempt on change request `cr42` by a client contact with a
captured client signature. -/
def readySignState : CRSignState :=
  { changeRequestId := some "cr42", userRole := some "client_contact",
    userName := some "jane", clientSignature := some "sigdata",
    providerSignature := none }

/-- Closed witness for `namedActions_spec`: evaluates the no-id silent
return, a complete `sign_change_request` POST, and both
`generate_handover_document` branches at concrete inputs. -/
theorem namedActions_spec_witness :
    handleSignatureSubmit noIdSignState "2024-02-02T00:00:00.000Z"
      = (none, none)
    ∧ handleSignatureSubmit readySignState "2024-02-02T00:00:00.000Z"
      = (some
          { url := "/api/change-requests/cr42/sign_change_request/"
            method := "POST"
            signature_data :=
              { name := "jane", signature := "sigdata",
                date := "2024-02-02T00:00:00.000Z" } },
         none)
    ∧ generateDocument none
      = (none, some "Please save the handover first before generating document")
    ∧ generateDocument (some "h7")
      = (some
          { url := "/api/pilot-handover/h7/generate_handover_document/"
            method := "POST" },
         none) := by
  have h := namedActions_spec readySignState "2024-02-02T00:00:00.000Z"
    (some "h7")
  refine ⟨?_, ?_, h.2.2.2.1, h.2.2.2.2 "h7" rfl⟩
  · exact (namedActions_spec noIdSignState "2024-02-02T00:00:00.000Z"
      none).1 rfl
  · have h2 := h.2.1 "cr42" "sigdata" rfl (by decide)
    rw [h2]
    decide

/-! ## The pilot-acceptance form (`PilotAcceptanceForm.calculateCompletion`
and the Submit Acceptance button) -/

/-- The keys of the 12 `CHECKLIST_ITEMS`. -/
def CHECKLIST_KEYS : List String :=
  [ "digital_gateway_live", "mobile_friendly", "pages_present",
    "portals_linked", "social_media_embedded", "logo_colors_correct",
    "photos_content_displayed", "layout_design_ok",
    "staff_training_completed", "training_materials_provided",
    "no_critical_errors", "minor_issues_resolved" ]

/-- Modelled from the spec: JavaScript `Math.round` of the nonnegative
fraction `num / den`, i.e. `⌊num/den + 1/2⌋`.  For the percentages used here
(`100·c/12`) the fraction is never a half-integer, so the double-precision
rounding in the source agrees with this exact rational rounding. -/
def jsRound (num den : Nat) : Nat :=
  (2 * num + den) / (2 * den)

/-- `Object.values(checklist).filter(Boolean).length`: how many checklist
entries are checked.  The checklist object is modelled as the association
list of the keys toggled so far (only `CHECKLIST_ITEMS` keys are ever
dispatched). -/
def completedItems (checklist : List (String × Bool)) : Nat :=
  ((checklist.map Prod.snd).filter (fun b => b)).length

/-- `calculateCompletion()`:
`Math.round((completedItems / totalItems) * 100)` with
`totalItems = CHECKLIST_ITEMS.length`. -/
def calculateCompletion (checklist : List (String × Bool)) : Nat :=
  jsRound (completedItems checklist * 100) CHECKLIST_KEYS.length

/-- The Submit Acceptance button: `disabled={isLoading ||
completionPercentage < 100}`; submission is possible exactly when it is not
disabled. -/
def submitEnabled (isLoading : Bool) (checklist : List (String × Bool)) :
    Bool :=
  !isLoading && ! (decide (calculateCompletion checklist < 100))

/-- C8: the completion percentage is `Math.round(100·checked/12)`, which
equals 100 exactly when all 12 items are checked; hence the Submit
Acceptance button is enabled only in the all-checked state.  Hypotheses: the
checklist object has unique keys and only ever holds `CHECKLIST_ITEMS`
keys (the only keys `handleChecklistChange` dispatches). -/
theorem acceptance_submit_requires_all (isLoading : Bool)
    (checklist : List (String × Bool))
    (hkeys : (checklist.map Prod.fst).Nodup)
    (hsub : ∀ p ∈ checklist, p.1 ∈ CHECKLIST_KEYS) :
    (calculateCompletion checklist = 100
      ↔ completedItems checklist = 12)
    ∧ (submitEnabled isLoading checklist = true →
        isLoading = false ∧ ∀ k ∈ CHECKLIST_KEYS, (k, true) ∈ checklist) := by
  have hlen : checklist.length ≤ 12 := by
    have h1 : (checklist.map Prod.fst).toFinset.card = checklist.length := by
      rw [List.toFinset_card_of_nodup hkeys, List.length_map]
    have h2 : (checklist.map Prod.fst).toFinset ⊆ CHECKLIST_KEYS.toFinset := by
      intro x hx
      rw [List.mem_toFinset] at hx ⊢
      rcases List.mem_map.mp hx with ⟨p, hp, rfl⟩
      exact hsub p hp
    have h3 := Finset.card_le_card h2
    have h4 : CHECKLIST_KEYS.toFinset.card ≤ 12 := by decide
    omega
  have hc : completedItems checklist ≤ 12 := by
    have := List.length_filter_le (fun b => b) (checklist.map Prod.snd)
    have hm : (checklist.map Prod.snd).length = checklist.length :=
      List.length_map _ _
    unfold completedItems
    omega
  have hform : calculateCompletion checklist
      = (2 * (completedItems checklist * 100) + 12) / 24 := rfl
  have hiff : calculateCompletion checklist = 100
      ↔ completedItems checklist = 12 := by
    rw [hform]
    omega
  refine ⟨hiff, ?_⟩
  intro hen
  rcases Bool.and_eq_true_iff.mp hen with ⟨hload, hpct⟩
  have hload' : isLoading = false := by
    cases isLoading
    · rfl
    · simp at hload
  have hpct' : ¬ (calculateCompletion checklist < 100) := by
    intro hlt
    rw [decide_eq_true hlt] at hpct
    simp at hpct
  have hle : calculateCompletion checklist ≤ 100 := by
    rw [hform]; omega
  have h100 : calculateCompletion checklist = 100 := by omega
  have h12 : completedItems checklist = 12 := hiff.mp h100
  refine ⟨hload', ?_⟩
  -- all stored values are true
  have hflen : ((checklist.map Prod.snd).filter (fun b => b)).length
      = (checklist.map Prod.snd).length := by
    have hfl := List.length_filter_le (fun b => b) (checklist.map Prod.snd)
    have hm : (checklist.map Prod.snd).length = checklist.length :=
      List.length_map _ _
    unfold completedItems at h12
    omega
  have halltrue : ∀ b ∈ checklist.map Prod.snd, b = true := by
    intro b hb
    simpa using List.filter_length_eq_length.mp hflen b hb
  -- the key set is all of CHECKLIST_KEYS
  have hlen12 : checklist.length = 12 := by
    unfold completedItems at h12
    have hfl := List.length_filter_le (fun b => b) (checklist.map Prod.snd)
    have hm : (checklist.map Prod.snd).length = checklist.length :=
      List.length_map _ _
    omega
  have h1 : (checklist.map Prod.fst).toFinset.card = 12 := by
    rw [List.toFinset_card_of_nodup hkeys, List.length_map, hlen12]
  have h2 : (checklist.map Prod.fst).toFinset ⊆ CHECKLIST_KEYS.toFinset := by
    intro x hx
    rw [List.mem_toFinset] at hx ⊢
    rcases List.mem_map.mp hx with ⟨p, hp, rfl⟩
    exact hsub p hp
  have hKcard : CHECKLIST_KEYS.toFinset.card ≤ 12 := by decide
  have heq : (checklist.map Prod.fst).toFinset = CHECKLIST_KEYS.toFinset :=
    Finset.eq_of_subset_of_card_le h2 (by omega)
  intro k hk
  have hkF : k ∈ (checklist.map Prod.fst).toFinset := by
    rw [heq, List.mem_toFinset]
    exact hk
  rw [List.mem_toFinset] at hkF
  rcases List.mem_map.mp hkF with ⟨p, hp, hpk⟩
  have hpb : p.2 = true := halltrue p.2 (List.mem_map.mpr ⟨p, hp, rfl⟩)
  have : (k, true) = p := by
    rw [← hpk, ← hpb]
  rw [this]
  exact hp

/-- The fully checked checklist state. -/
def allChecked : List (String × Bool) :=
  CHECKLIST_KEYS.map (fun k => (k, true))

/-- Closed witness for `acceptance_submit_requires_all`: with every one of
the 12 items checked the percentage is 100, and the enabled Submit button
implies each item — e.g. `minor_issues_resolved` — is checked. -/
theorem acceptance_submit_requires_all_witness :
    calculateCompletion allChecked = 100
    ∧ ("minor_issues_resolved", true) ∈ allChecked := by
  have h := acceptance_submit_requires_all false allChecked (by decide)
    (by decide)
  exact ⟨h.1.mpr (by decide),
    (h.2 (by decide)).2 "minor_issues_resolved" (by decide)⟩

end SumanoOps
